import Mathlib

/-!
Shallow embedding of `src/pdf_split.py` (class `PdfHtmlProcessor`).

The Python source is a streaming segmentation state machine: it walks the
markup tree of each PDF page (headings `h1`..`h6`, paragraphs `p`), keeps a
six-slot heading stack, accumulates paragraph text, image paths and per-page
table texts, and yields `Document` records at heading boundaries and at end of
input.  Machine-level effects are made explicit here: Python exceptions
(`binascii.Error` from `b64decode`, `TypeError` from joining a list that
contains `None`, `ValueError` from `int`/`datetime`) are modelled with
`Except Unit` / `Option`; the md5 content hash used for image file names is an
external library call and is passed in as a function parameter.
-/

namespace PdfSplit

/-- Python slice `s[a:b]` for `0 ≤ a ≤ b` (the only form the source uses). -/
def pySlice (s : String) (a b : Nat) : String :=
  ⟨(s.data.drop a).take (b - a)⟩

/-- Python slice `s[a:]`. -/
def pySliceFrom (s : String) (a : Nat) : String :=
  ⟨s.data.drop a⟩

/-- The ASCII whitespace characters stripped by Python `int(str)`. -/
def isPyWs (c : Char) : Bool :=
  c == ' ' || c == '\t' || c == '\n' || c == '\r' || c == '\x0b' || c == '\x0c'

/-- Digit-run parser for Python `int`: digits with single underscores allowed
between digits, as in `int("1_2")`. `acc` is the value of the digits read so
far. -/
def pyDigitsGo (acc : Nat) : List Char → Option Nat
  | [] => some acc
  | c :: rest =>
    if c.isDigit then pyDigitsGo (acc * 10 + (c.toNat - 48)) rest
    else if c == '_' then
      match rest with
      | [] => none
      | d :: rest2 =>
        if d.isDigit then pyDigitsGo (acc * 10 + (d.toNat - 48)) rest2 else none
    else none

/-- Nonempty digit run (first char must be a digit). -/
def pyDigits : List Char → Option Nat
  | [] => none
  | c :: rest => if c.isDigit then pyDigitsGo (c.toNat - 48) rest else none

/-- Python `int(s)` on a string: strip surrounding whitespace, optional sign,
then a digit run; `none` models the `ValueError` Python raises otherwise. -/
def pythonInt (s : String) : Option Int :=
  let cs := ((s.data.dropWhile isPyWs).reverse.dropWhile isPyWs).reverse
  match cs with
  | '+' :: rest => (pyDigits rest).map Int.ofNat
  | '-' :: rest => (pyDigits rest).map (fun n => -(Int.ofNat n))
  | rest => (pyDigits rest).map Int.ofNat

/-- Gregorian leap-year test, as used by Python `datetime`. -/
def isLeapYear (y : Int) : Prop :=
  y % 4 = 0 ∧ (y % 100 ≠ 0 ∨ y % 400 = 0)

instance (y : Int) : Decidable (isLeapYear y) := by
  unfold isLeapYear; infer_instance

/-- Number of days in a month, as validated by Python `datetime`. -/
def daysInMonth (y m : Int) : Int :=
  if m = 1 ∨ m = 3 ∨ m = 5 ∨ m = 7 ∨ m = 8 ∨ m = 10 ∨ m = 12 then 31
  else if m = 4 ∨ m = 6 ∨ m = 9 ∨ m = 11 then 30
  else if isLeapYear y then 29 else 28

/-- The argument ranges accepted by the `datetime(...)` constructor. -/
def datetimeValid (y mo d h mi s : Int) : Prop :=
  1 ≤ y ∧ y ≤ 9999 ∧ 1 ≤ mo ∧ mo ≤ 12 ∧ 1 ≤ d ∧ d ≤ daysInMonth y mo ∧
  0 ≤ h ∧ h ≤ 23 ∧ 0 ≤ mi ∧ mi ≤ 59 ∧ 0 ≤ s ∧ s ≤ 59

instance (y mo d h mi s : Int) : Decidable (datetimeValid y mo d h mi s) := by
  unfold datetimeValid; infer_instance

/-- Left-pad a number with zeros to the given width. -/
def padNum (width : Nat) (n : Nat) : String :=
  let s := toString n
  ⟨List.replicate (width - s.length) '0'⟩ ++ s

/-- `dt.strftime(%Y-%m-%d %H:%M:%S)` with the year zero-padded to four
digits (the format documented by Python; C strftime may drop the padding for
years below 1000 on some platforms, which no theorem below relies on). -/
def fmtDate (y mo d h mi s : Int) : String :=
  padNum 4 y.toNat ++ "-" ++ padNum 2 mo.toNat ++ "-" ++ padNum 2 d.toNat ++ " " ++
  padNum 2 h.toNat ++ ":" ++ padNum 2 mi.toNat ++ ":" ++ padNum 2 s.toNat

/-- `PdfHtmlProcessor._convert_pdf_date` (src/pdf_split.py lines 83-101):
positional `int` parses of the six date fields, a `datetime` constructor call
that validates calendar ranges, and `strftime`.  `.error ()` models the
`ValueError` raised by `int` on an unparseable field or by `datetime` on an
out-of-range value. -/
def convert_pdf_date (s : String) : Except Unit String :=
  match pythonInt (pySlice s 2 6) with
  | none => .error ()
  | some y =>
    match pythonInt (pySlice s 6 8) with
    | none => .error ()
    | some mo =>
      match pythonInt (pySlice s 8 10) with
      | none => .error ()
      | some d =>
        match pythonInt (pySlice s 10 12) with
        | none => .error ()
        | some h =>
          match pythonInt (pySlice s 12 14) with
          | none => .error ()
          | some mi =>
            match pythonInt (pySlice s 14 16) with
            | none => .error ()
            | some se =>
              if datetimeValid y mo d h mi se then .ok (fmtDate y mo d h mi se)
              else .error ()

/-- Is `c` in the standard base64 alphabet (excluding padding)? -/
def isB64Char (c : Char) : Bool :=
  c.isUpper || c.isLower || c.isDigit || c == '+' || c == '/'

/-- Value of a base64 alphabet character. -/
def b64val (c : Char) : Nat :=
  if c.isUpper then c.toNat - 65
  else if c.isLower then c.toNat - 97 + 26
  else if c.isDigit then c.toNat - 48 + 52
  else if c == '+' then 62 else 63

/-- Decode a pre-filtered base64 character stream in groups of four;
`none` models the `binascii.Error` (invalid padding) raised by Python's
`b64decode` when the stream cannot be consumed in full quads. -/
def b64Quads : List Char → Option (List Nat)
  | [] => some []
  | a :: b :: '=' :: '=' :: rest =>
    if isB64Char a && isB64Char b && rest.isEmpty then
      some [(b64val a * 4 + b64val b / 16) % 256]
    else none
  | a :: b :: c :: '=' :: rest =>
    if isB64Char a && isB64Char b && isB64Char c && rest.isEmpty then
      let n := b64val a * 4096 + b64val b * 64 + b64val c
      some [n / 1024 % 256, n / 4 % 256]
    else none
  | a :: b :: c :: d :: rest =>
    match b64Quads rest with
    | none => none
    | some tail =>
      let n := b64val a * 262144 + b64val b * 4096 + b64val c * 64 + b64val d
      some ([n / 65536, n / 256 % 256, n % 256] ++ tail)
  | _ => none

/-- Python `base64.b64decode` in its default non-strict mode: characters
outside the alphabet are discarded, then the stream is decoded in quads;
`none` models the raised `binascii.Error`. -/
def b64Decode (s : String) : Option (List Nat) :=
  b64Quads (s.data.filter (fun c => isB64Char c || c == '='))

/-- Search for `pat` in `s` starting at `i`; returns the absolute index of the
first occurrence. -/
def findSubAux (pat : List Char) : List Char → Nat → Option Nat
  | [], i => if pat.isEmpty then some i else none
  | c :: rest, i =>
    if pat.isPrefixOf (c :: rest) then some i else findSubAux pat rest (i + 1)

/-- Python `s.find(pat, start)`, with `none` for Python's `-1`. -/
def strFind (s pat : String) (start : Nat) : Option Nat :=
  findSubAux pat.data (s.data.drop start) start

/-- Python `s.startswith(pre)` (structurally recursive so proofs can
evaluate it). -/
def pyStartsWith (s pre : String) : Bool :=
  pre.data.isPrefixOf s.data

/-- Does `s` contain `pat` as a substring (Python `pat in s`)? -/
def containsSub (s pat : String) : Bool :=
  (findSubAux pat.data s.data 0).isSome

/-- `PdfHtmlProcessor._check_and_decode_base64_image`
(src/pdf_split.py lines 45-81) on the `src` attribute of the paragraph's
`<img>` tag (`none` when `child.find("img")` returned no tag).  `hash` stands
for the external md5 hexdigest of the decoded bytes used to name the stored
file.  `.ok none`: not a base64 image, caller falls back to text;
`.ok (some path)`: image stored under `path`; `.error ()`: the uncaught
`binascii.Error` raised by `b64decode` on a malformed payload. -/
def check_and_decode_base64_image (hash : List Nat → String) (img : Option String) :
    Except Unit (Option String) :=
  match img with
  | none => .ok none
  | some data_url =>
    if ¬ pyStartsWith data_url "data:image/" then .ok none
    else
      match strFind data_url "data:image/" 0 with
      | none => .ok none
      | some data_url_start =>
        match strFind data_url ";base64," data_url_start with
        | none => .ok none
        | some data_url_end =>
          let img_data := pySliceFrom data_url (data_url_end + 8)
          match b64Decode img_data with
          | none => .error ()
          | some image_data =>
            let ext :=
              ((pySlice data_url (data_url_start + 11) data_url_end).splitOn "/").getLast?.getD ""
            .ok (some (hash image_data ++ "." ++ ext))

/-- A value stored in a `Document` metadata dict: a metadata string, a list of
strings (images, tables), or the titles list which may contain `None` slots. -/
inductive MetaVal where
  | str : String → MetaVal
  | strList : List String → MetaVal
  | optList : List (Option String) → MetaVal
deriving DecidableEq, Repr

/-- A Python dict as an insertion-ordered association list. -/
abbrev Dict := List (String × MetaVal)

/-- `d[k] = v`: replace in place if the key exists, else append. -/
def dictSet (d : Dict) (k : String) (v : MetaVal) : Dict :=
  if d.any (fun p => p.1 == k) then
    d.map (fun p => if p.1 == k then (k, v) else p)
  else d ++ [(k, v)]

/-- Python `d.update(e)`. -/
def dictUpdate (d : Dict) (e : Dict) : Dict :=
  e.foldl (fun acc p => dictSet acc p.1 p.2) d

/-- Python `d[k]` lookup (as an `Option`). -/
def dictGet (d : Dict) (k : String) : Option MetaVal :=
  (d.find? (fun p => p.1 == k)).map Prod.snd

/-- A direct child of the page's markup `div`: a heading `h1`..`h6` (so
`1 ≤ level ≤ 6` by construction of the tag name), a paragraph `p` carrying the
`src` of an embedded `<img>` when one is present plus its `get_text()`, or any
other node, which the source ignores. -/
inductive Node where
  | heading (level : Nat) (text : String)
  | para (img : Option String) (text : String)
  | other
deriving DecidableEq, Repr

/-- A table detected on a page: its header column names (nullable) and the
opaque JSON serialization produced by `to_pandas().dropna(axis=1).to_json`. -/
structure TableDesc where
  names : List (Option String)
  json : String
deriving DecidableEq, Repr

/-- One PDF page as the extractor presents it to the state machine. -/
structure Page where
  tables : List TableDesc
  children : List Node
deriving DecidableEq, Repr

/-- Table name derivation (src/pdf_split.py line 126): join the non-null
header names that do not contain `"Col"` with underscores. -/
def tableName (names : List (Option String)) : String :=
  String.intercalate "_" ((names.filterMap id).filter (fun x => ¬ containsSub x "Col"))

/-- The page's `table_text` accumulator (src/pdf_split.py lines 122-130). -/
def pageTableText (p : Page) : String :=
  p.tables.foldl (fun acc t => acc ++ (tableName t.names ++ "\n" ++ t.json ++ "\n")) ""

/-- The mutable state of `PdfHtmlProcessor` used by `process_pdf`:
`text_titles` (six optional slots), `accumulated_text`, `image_paths`,
`table_text_list`. -/
structure PState where
  text_titles : List (Option String)
  accumulated_text : String
  image_paths : List String
  table_text_list : List String
deriving DecidableEq, Repr

/-- The state set up by `__init__` (src/pdf_split.py lines 39-42). -/
def initState : PState :=
  ⟨List.replicate 6 none, "", [], []⟩

/-- Heading application (src/pdf_split.py lines 143-144):
`text_titles[level-1] = T` then `text_titles[level:] = [None]*(6-level)`. -/
def setTitles (titles : List (Option String)) (level : Nat) (t : String) :
    List (Option String) :=
  ((titles.set (level - 1) (some t)).take level) ++ List.replicate (6 - level) none

/-- Python `sep.join(l)` on a list that may contain `None`: raises `TypeError`
(modelled as `.error ()`) when any element is `None`. -/
def pyJoinOpt (sep : String) (l : List (Option String)) : Except Unit String :=
  if l.all Option.isSome then .ok (String.intercalate sep (l.filterMap id))
  else .error ()

/-- Python `filter(None, l)` on the titles list: keeps the truthy elements,
dropping both `None` slots and empty strings. -/
def pyFilterTruthy (l : List (Option String)) : List String :=
  (l.filterMap id).filter (fun s => s ≠ "")

/-- The `langchain` `Document` as used by the source: page content plus a
metadata dict. -/
structure Document where
  page_content : String
  metadata : Dict
deriving DecidableEq, Repr

/-- Mid-stream segment construction (src/pdf_split.py lines 146-157), called
with the state as it is AFTER the triggering heading at `level` has been
applied (the source applies the heading on lines 143-144 before flushing):
content, optionally prefixed by `"\n".join(text_titles[:level]) + "\n\n"`,
and metadata `{titles, images}` updated with `{table}` (a copy) and then with
the file metadata. -/
def midFlushDoc (embed : Bool) (fileMeta : List (String × String)) (st : PState)
    (level : Nat) : Except Unit Document :=
  let base := st.accumulated_text
  let contentE : Except Unit String :=
    if embed then
      match pyJoinOpt "\n" (st.text_titles.take level) with
      | .error e => .error e
      | .ok j => .ok (j ++ "\n\n" ++ base)
    else .ok base
  match contentE with
  | .error e => .error e
  | .ok content =>
    let m0 : Dict := [("titles", .optList (st.text_titles.take level)),
                      ("images", .strList st.image_paths)]
    let m1 := dictUpdate m0 [("table", .strList st.table_text_list)]
    let m2 := dictUpdate m1 (fileMeta.map (fun p => (p.1, MetaVal.str p.2)))
    .ok ⟨content, m2⟩

/-- End-of-input segment construction (src/pdf_split.py lines 179-190):
content optionally prefixed by `"\n".join(filter(None, text_titles)) + "\n\n"`
(dropping unset and empty slots), metadata `titles` being the FULL six-slot
stack, and `table` being the live `table_text_list` (no copy in the source;
the value snapshot is taken here, aliasing is studied in the heap model
below). -/
def finalFlushDoc (embed : Bool) (fileMeta : List (String × String)) (st : PState) :
    Document :=
  let base := st.accumulated_text
  let content :=
    if embed then String.intercalate "\n" (pyFilterTruthy st.text_titles) ++ "\n\n" ++ base
    else base
  let m0 : Dict := [("titles", .optList st.text_titles),
                    ("images", .strList st.image_paths)]
  let m1 := dictUpdate m0 [("table", .strList st.table_text_list)]
  let m2 := dictUpdate m1 (fileMeta.map (fun p => (p.1, MetaVal.str p.2)))
  ⟨content, m2⟩

/-- The guarded end-of-input flush (src/pdf_split.py lines 178-196): a final
`Document` is produced only when `accumulated_text` is non-empty. -/
def finalStep (embed : Bool) (fileMeta : List (String × String)) (st : PState) :
    Option Document :=
  if st.accumulated_text ≠ "" then some (finalFlushDoc embed fileMeta st) else none

/-- One step of the per-child loop (src/pdf_split.py lines 140-176).  Returns
the new state and the `Document` yielded at this child, if any;
`.error ()` models an uncaught Python exception aborting the traversal. -/
def processChild (embed exact : Bool) (hash : List Nat → String)
    (fileMeta : List (String × String)) (st : PState) (child : Node) :
    Except Unit (PState × Option Document) :=
  match child with
  | .heading level t =>
    let st2 := { st with text_titles := setTitles st.text_titles level t }
    if st2.accumulated_text ≠ "" then
      match midFlushDoc embed fileMeta st2 level with
      | .error e => .error e
      | .ok doc =>
        .ok ({ st2 with accumulated_text := "", image_paths := [], table_text_list := [] },
             some doc)
    else .ok (st2, none)
  | .para img t =>
    if exact then
      match check_and_decode_base64_image hash img with
      | .error e => .error e
      | .ok (some p) =>
        if p ≠ "" then .ok ({ st with image_paths := st.image_paths ++ [p] }, none)
        else .ok ({ st with accumulated_text := st.accumulated_text ++ t }, none)
      | .ok none => .ok ({ st with accumulated_text := st.accumulated_text ++ t }, none)
    else .ok ({ st with accumulated_text := st.accumulated_text ++ t }, none)
  | .other => .ok (st, none)

/-- The per-child loop over one page's children, collecting yielded docs. -/
def processChildren (embed exact : Bool) (hash : List Nat → String)
    (fileMeta : List (String × String)) (st : PState) :
    List Node → Except Unit (PState × List Document)
  | [] => .ok (st, [])
  | c :: rest =>
    match processChild embed exact hash fileMeta st c with
    | .error e => .error e
    | .ok (st1, d) =>
      match processChildren embed exact hash fileMeta st1 rest with
      | .error e => .error e
      | .ok (st2, ds) => .ok (st2, d.toList ++ ds)

/-- One page (src/pdf_split.py lines 121-176): append the page's table text to
`table_text_list`, then process the children. -/
def processPage (embed exact : Bool) (hash : List Nat → String)
    (fileMeta : List (String × String)) (st : PState) (p : Page) :
    Except Unit (PState × List Document) :=
  processChildren embed exact hash fileMeta
    { st with table_text_list := st.table_text_list ++ [pageTableText p] } p.children

/-- The page loop. -/
def processPages (embed exact : Bool) (hash : List Nat → String)
    (fileMeta : List (String × String)) (st : PState) :
    List Page → Except Unit (PState × List Document)
  | [] => .ok (st, [])
  | p :: rest =>
    match processPage embed exact hash fileMeta st p with
    | .error e => .error e
    | .ok (st1, ds1) =>
      match processPages embed exact hash fileMeta st1 rest with
      | .error e => .error e
      | .ok (st2, ds2) => .ok (st2, ds1 ++ ds2)

/-- `PdfHtmlProcessor.process_pdf` (src/pdf_split.py lines 103-196) as the
sequence of `Document` values the generator yields (`.error ()` when an
uncaught exception aborts it): run the page loop from the initial state and
append the guarded end-of-input flush. -/
def process_pdf (embed exact : Bool) (hash : List Nat → String)
    (fileMeta : List (String × String)) (pages : List Page) :
    Except Unit (List Document) :=
  match processPages embed exact hash fileMeta initState pages with
  | .error e => .error e
  | .ok (stF, ds) => .ok (ds ++ (finalStep embed fileMeta stF).toList)

/-- A concrete stand-in for the md5 hexdigest function, used to instantiate
theorems at closed inputs. -/
def hash0 : List Nat → String := fun _ => "cafe"

/-! ### Heap model of the generator

Python lists are objects mutated in place; the value model above snapshots
them.  To study what the source shares between a yielded `Document` and the
processor state, this refinement gives the table lists object identity: a heap
of list objects addressed by allocation index.  `table_text_list.copy()`
allocates a fresh object (line 156), `.clear()` mutates an object in place
(lines 163 and 196), and `self.x = []` rebinds the attribute to a fresh
object (lines 162 and 195).  Mid-stream documents store the copy's address
(line 156); the final document stores the address of the live
`table_text_list` itself (line 189, no `.copy()`). -/

/-- The heap of table-list objects. -/
structure Heap where
  store : List (List String)
deriving DecidableEq, Repr

/-- Allocate a fresh list object. -/
def halloc (h : Heap) (v : List String) : Heap × Nat :=
  (⟨h.store ++ [v]⟩, h.store.length)

/-- Read an object. -/
def hget (h : Heap) (r : Nat) : List String :=
  (h.store.get? r).getD []

/-- Overwrite an object in place (used for `.clear()` and `.append`). -/
def hset (h : Heap) (r : Nat) (v : List String) : Heap :=
  ⟨h.store.set r v⟩

/-- A yielded document in the heap model: its table entry is an object
address; `tableAtYield` records the object's value at yield time. -/
structure HDoc where
  page_content : String
  titles : List (Option String)
  images : List String
  tableRef : Nat
  tableAtYield : List String
deriving DecidableEq, Repr

/-- Processor state in the heap model: `table_text_list` is an address. -/
structure HState where
  titles : List (Option String)
  acc : String
  images : List String
  tableRef : Nat
deriving DecidableEq, Repr

/-- Heap-model counterpart of `processChild`. -/
def hProcessChild (embed exact : Bool) (hash : List Nat → String) (h : Heap)
    (st : HState) (child : Node) : Except Unit (Heap × HState × Option HDoc) :=
  match child with
  | .heading level t =>
    let titles2 := setTitles st.titles level t
    if st.acc ≠ "" then
      let contentE : Except Unit String :=
        if embed then
          match pyJoinOpt "\n" (titles2.take level) with
          | .error e => .error e
          | .ok j => .ok (j ++ "\n\n" ++ st.acc)
        else .ok st.acc
      match contentE with
      | .error e => .error e
      | .ok content =>
        let (h1, copyRef) := halloc h (hget h st.tableRef)
        let doc : HDoc := ⟨content, titles2.take level, st.images, copyRef, hget h1 copyRef⟩
        let h2 := hset h1 st.tableRef []
        .ok (h2, ⟨titles2, "", [], st.tableRef⟩, some doc)
    else .ok (h, { st with titles := titles2 }, none)
  | .para img t =>
    if exact then
      match check_and_decode_base64_image hash img with
      | .error e => .error e
      | .ok (some p) =>
        if p ≠ "" then .ok (h, { st with images := st.images ++ [p] }, none)
        else .ok (h, { st with acc := st.acc ++ t }, none)
      | .ok none => .ok (h, { st with acc := st.acc ++ t }, none)
    else .ok (h, { st with acc := st.acc ++ t }, none)
  | .other => .ok (h, st, none)

/-- Heap-model child loop. -/
def hProcessChildren (embed exact : Bool) (hash : List Nat → String) (h : Heap)
    (st : HState) : List Node → Except Unit (Heap × HState × List HDoc)
  | [] => .ok (h, st, [])
  | c :: rest =>
    match hProcessChild embed exact hash h st c with
    | .error e => .error e
    | .ok (h1, st1, d) =>
      match hProcessChildren embed exact hash h1 st1 rest with
      | .error e => .error e
      | .ok (h2, st2, ds) => .ok (h2, st2, d.toList ++ ds)

/-- Heap-model page loop: `table_text_list.append(table_text)` mutates the
live object in place (line 132). -/
def hProcessPages (embed exact : Bool) (hash : List Nat → String) (h : Heap)
    (st : HState) : List Page → Except Unit (Heap × HState × List HDoc)
  | [] => .ok (h, st, [])
  | p :: rest =>
    let h0 := hset h st.tableRef (hget h st.tableRef ++ [pageTableText p])
    match hProcessChildren embed exact hash h0 st p.children with
    | .error e => .error e
    | .ok (h1, st1, ds1) =>
      match hProcessPages embed exact hash h1 st1 rest with
      | .error e => .error e
      | .ok (h2, st2, ds2) => .ok (h2, st2, ds1 ++ ds2)

/-- Heap-model `process_pdf`: allocate the initial `table_text_list`, run the
page loop, then the end-of-input flush — whose document stores the ADDRESS of
the live table list (line 189 has no `.copy()`) right before `.clear()`
empties that same object (line 196). -/
def hProcessPdf (embed exact : Bool) (hash : List Nat → String) (pages : List Page) :
    Except Unit (Heap × List HDoc) :=
  let (h0, r0) := halloc ⟨[]⟩ []
  match hProcessPages embed exact hash h0 ⟨List.replicate 6 none, "", [], r0⟩ pages with
  | .error e => .error e
  | .ok (h1, stF, ds) =>
    if stF.acc ≠ "" then
      let content :=
        if embed then String.intercalate "\n" (pyFilterTruthy stF.titles) ++ "\n\n" ++ stF.acc
        else stF.acc
      let doc : HDoc := ⟨content, stF.titles, stF.images, stF.tableRef, hget h1 stF.tableRef⟩
      let h2 := hset h1 stF.tableRef []
      .ok (h2, ds ++ [doc])
    else .ok (h1, ds)

/-! ### Helper lemmas -/

theorem setTitles_length {titles : List (Option String)} {L : Nat} {t : String}
    (h6 : titles.length = 6) (hL6 : L ≤ 6) :
    (setTitles titles L t).length = 6 := by
  simp only [setTitles, List.length_append, List.length_take, List.length_set,
    List.length_replicate, h6]
  omega

theorem setTitles_getElem_self {titles : List (Option String)} {L : Nat} {t : String}
    (h6 : titles.length = 6) (h1 : 1 ≤ L) (h2 : L ≤ 6) :
    (setTitles titles L t)[L - 1]? = some (some t) := by
  unfold setTitles
  have hlt : L - 1 < ((titles.set (L - 1) (some t)).take L).length := by
    simp only [List.length_take, List.length_set, h6]; omega
  rw [List.getElem?_append, if_pos hlt, List.getElem?_take_of_lt (by omega)]
  exact List.getElem?_set_self (by omega)

theorem setTitles_getElem_ge {titles : List (Option String)} {L j : Nat} {t : String}
    (h6 : titles.length = 6) (h2 : L ≤ 6) (hjL : L ≤ j) (hj6 : j < 6) :
    (setTitles titles L t)[j]? = some none := by
  unfold setTitles
  have hlen : ((titles.set (L - 1) (some t)).take L).length = L := by
    simp only [List.length_take, List.length_set, h6]; omega
  rw [List.getElem?_append, if_neg (by rw [hlen]; omega), hlen]
  exact List.getElem?_replicate_of_lt (by omega)

theorem foldl_setTitles_length {events : List (Nat × String)}
    {titles : List (Option String)} (h6 : titles.length = 6)
    (hev : ∀ e ∈ events, e.1 ≤ 6) :
    (events.foldl (fun ts e => setTitles ts e.1 e.2) titles).length = 6 := by
  induction events generalizing titles with
  | nil => exact h6
  | cons e rest ih =>
    exact ih (setTitles_length h6 (hev e (List.mem_cons_self e rest)))
      (fun x hx => hev x (List.mem_cons_of_mem e hx))

theorem find?_map_dictSet (d : Dict) (k k' : String) (v : MetaVal) (hkk : k' ≠ k) :
    (d.map (fun p => if p.1 == k' then (k', v) else p)).find? (fun p => p.1 == k) =
      d.find? (fun p => p.1 == k) := by
  induction d with
  | nil => rfl
  | cons p rest ih =>
    rw [List.map_cons]
    by_cases hp : p.1 = k'
    · rw [if_pos (by simp [hp])]
      rw [List.find?_cons_of_neg _ (by simp [hkk]),
        List.find?_cons_of_neg _ (by simp [hp, hkk]), ih]
    · rw [if_neg (by simp [hp])]
      by_cases hpk : p.1 = k
      · rw [List.find?_cons_of_pos _ (by simp [hpk]),
          List.find?_cons_of_pos _ (by simp [hpk])]
      · rw [List.find?_cons_of_neg _ (by simp [hpk]),
          List.find?_cons_of_neg _ (by simp [hpk]), ih]

theorem dictGet_dictSet_ne (d : Dict) (k k' : String) (v : MetaVal) (hkk : k' ≠ k) :
    dictGet (dictSet d k' v) k = dictGet d k := by
  unfold dictSet dictGet
  by_cases h : d.any (fun p => p.1 == k')
  · rw [if_pos h, find?_map_dictSet d k k' v hkk]
  · rw [if_neg h, List.find?_append]
    have hn : List.find? (fun p => p.1 == k) [(k', v)] = none := by simp [hkk]
    rw [hn, Option.or_none]

theorem find?_map_dictSet_self (d : Dict) (k : String) (v : MetaVal)
    (h : d.any (fun p => p.1 == k) = true) :
    (((d.map (fun p => if p.1 == k then (k, v) else p)).find?
        (fun p => p.1 == k)).map Prod.snd) = some v := by
  induction d with
  | nil => simp at h
  | cons p rest ih =>
    rw [List.map_cons]
    by_cases hp : p.1 = k
    · rw [if_pos (by simp [hp]), List.find?_cons_of_pos _ (by simp)]
      rfl
    · rw [if_neg (by simp [hp]), List.find?_cons_of_neg _ (by simp [hp])]
      apply ih
      simp only [List.any_cons, Bool.or_eq_true] at h
      rcases h with h | h
      · exact absurd (by simpa using h) hp
      · exact h

theorem dictGet_dictSet_self (d : Dict) (k : String) (v : MetaVal) :
    dictGet (dictSet d k v) k = some v := by
  unfold dictSet dictGet
  by_cases h : d.any (fun p => p.1 == k)
  · rw [if_pos h]
    exact find?_map_dictSet_self d k v h
  · rw [if_neg h, List.find?_append]
    have hnone : List.find? (fun p => p.1 == k) d = none := by
      rw [List.find?_eq_none]
      intro x hx hxk
      exact h (List.any_eq_true.mpr ⟨x, hx, hxk⟩)
    rw [hnone, Option.none_or, List.find?_cons_of_pos _ (by simp)]
    rfl

theorem dictGet_dictUpdate_not_mem (d : Dict) (e : Dict) (k : String)
    (he : ∀ p ∈ e, p.1 ≠ k) :
    dictGet (dictUpdate d e) k = dictGet d k := by
  induction e generalizing d with
  | nil => rfl
  | cons p rest ih =>
    unfold dictUpdate
    simp only [List.foldl_cons]
    rw [show (rest.foldl (fun acc q => dictSet acc q.1 q.2) (dictSet d p.1 p.2)) =
      dictUpdate (dictSet d p.1 p.2) rest from rfl]
    rw [ih (dictSet d p.1 p.2) (fun q hq => he q (List.mem_cons_of_mem p hq))]
    exact dictGet_dictSet_ne _ _ _ _ (he p (List.mem_cons_self p rest))

theorem dictGet_dictUpdate_mem (d : Dict) (e : Dict) (k : String) (v : MetaVal)
    (hnodup : (e.map Prod.fst).Nodup) (hmem : (k, v) ∈ e) :
    dictGet (dictUpdate d e) k = some v := by
  induction e generalizing d with
  | nil => simp at hmem
  | cons p rest ih =>
    rw [List.map_cons, List.nodup_cons] at hnodup
    unfold dictUpdate
    simp only [List.foldl_cons]
    rw [show (rest.foldl (fun acc q => dictSet acc q.1 q.2) (dictSet d p.1 p.2)) =
      dictUpdate (dictSet d p.1 p.2) rest from rfl]
    rcases List.mem_cons.mp hmem with heq | hrest
    · subst heq
      rw [dictGet_dictUpdate_not_mem _ rest k ?hne]
      · exact dictGet_dictSet_self d k v
      case hne =>
        intro q hq hqk
        have hqmem : q.1 ∈ rest.map Prod.fst := List.mem_map_of_mem Prod.fst hq
        rw [hqk] at hqmem
        exact hnodup.1 hqmem
    · exact ih (dictSet d p.1 p.2) hnodup.2 hrest

/-! ### Claims -/

/-- Claim C1, counterexample.  Page 1 holds paragraphs "X","Y" with no
heading; page 2 starts with heading(1,"T") then paragraph "Z".  The Segment
emitted at the boundary has body "XY" but its heading_path is `[some "T"]` —
it DOES contain "T", because the source (lines 141-159) applies the heading to
the stack before flushing, not after.  The claim says the heading_path is the
stack active entering page 1 (empty here), so it is false at this input. -/
theorem c1_counterexample :
    process_pdf false false hash0 []
      [⟨[], [.para none "X", .para none "Y"]⟩, ⟨[], [.heading 1 "T", .para none "Z"]⟩] =
      .ok [⟨"XY", [("titles", .optList [some "T"]), ("images", .strList []),
                   ("table", .strList ["", ""])]⟩,
           ⟨"Z", [("titles", .optList [some "T", none, none, none, none, none]),
                  ("images", .strList []), ("table", .strList [])]⟩] ∧
    ([some "T"] : List (Option String)) ≠ [] := by
  constructor
  · rfl
  · decide

/-- Claim C1, amended.  At a heading(L,T) boundary with non-empty accumulated
text, the source first applies the heading to the stack and then flushes: the
emitted Segment's heading_path is the heading stack AFTER (L,T) is applied,
truncated to level L — in particular it contains T at level L.  (After the
application, L is also the stack's highest set level, so the truncation level
agrees with the spec's "highest set level" only relative to the NEW stack.) -/
theorem c1_mid_flush_uses_post_heading_stack
    (hash : List Nat → String) (st : PState) (L : Nat) (T : String)
    (h6 : st.text_titles.length = 6) (h1 : 1 ≤ L) (h2 : L ≤ 6)
    (hacc : st.accumulated_text ≠ "") :
    processChild false false hash [] st (.heading L T) =
      .ok ({ st with text_titles := setTitles st.text_titles L T,
                     accumulated_text := "", image_paths := [], table_text_list := [] },
           some { page_content := st.accumulated_text,
                  metadata := [("titles", .optList ((setTitles st.text_titles L T).take L)),
                               ("images", .strList st.image_paths),
                               ("table", .strList st.table_text_list)] }) ∧
    ((setTitles st.text_titles L T).take L)[L - 1]? = some (some T) := by
  constructor
  · simp [processChild, midFlushDoc, dictUpdate, dictSet, hacc]
  · rw [List.getElem?_take_of_lt (by omega)]
    exact setTitles_getElem_self h6 h1 h2

/-- Witness for `c1_mid_flush_uses_post_heading_stack` at the concrete
scenario of the claim (stack empty entering the flush, heading(1,"T")). -/
theorem c1_witness :
    processChild false false hash0 [] ⟨List.replicate 6 none, "XY", [], ["", ""]⟩
        (.heading 1 "T") =
      .ok ({ (⟨List.replicate 6 none, "XY", [], ["", ""]⟩ : PState) with
               text_titles := setTitles (List.replicate 6 none) 1 "T",
               accumulated_text := "", image_paths := [], table_text_list := [] },
           some { page_content := "XY",
                  metadata := [("titles",
                                  .optList ((setTitles (List.replicate 6 none) 1 "T").take 1)),
                               ("images", .strList []),
                               ("table", .strList ["", ""])] }) ∧
    ((setTitles (List.replicate 6 none) 1 "T").take 1)[0]? = some (some "T") := by
  exact c1_mid_flush_uses_post_heading_stack hash0 _ 1 "T" (by decide) (by decide)
    (by decide) (by decide)

/-- Claim C2, confirmed.  The state machine mutates the heading stack only
through `setTitles` (first conjunct: any successful `processChild` step on a
heading node rewrites the stack with `setTitles`); and for every sequence of
heading events applied to any six-slot stack, immediately after processing
heading(L,T) the stack holds T at level L and every deeper slot is unset,
regardless of prior slot values (second conjunct). -/
theorem c2_heading_truncation_invariant
    (embed exact : Bool) (hash : List Nat → String) (fileMeta : List (String × String))
    (events : List (Nat × String)) (titles0 : List (Option String)) (L : Nat) (T : String)
    (h60 : titles0.length = 6) (h1 : 1 ≤ L) (h2 : L ≤ 6)
    (hev : ∀ e ∈ events, e.1 ≤ 6) :
    (∀ st st' d, processChild embed exact hash fileMeta st (.heading L T) = .ok (st', d) →
        st'.text_titles = setTitles st.text_titles L T) ∧
    (((events ++ [(L, T)]).foldl (fun ts e => setTitles ts e.1 e.2) titles0)[L - 1]? =
        some (some T) ∧
      ∀ j, L ≤ j → j < 6 →
        ((events ++ [(L, T)]).foldl (fun ts e => setTitles ts e.1 e.2) titles0)[j]? =
          some none) := by
  refine ⟨?_, ?_, ?_⟩
  · intro st st' d h
    simp only [processChild] at h
    split at h
    · split at h
      · exact absurd h (by simp)
      · simp only [Except.ok.injEq, Prod.mk.injEq] at h
        rw [← h.1]
    · simp only [Except.ok.injEq, Prod.mk.injEq] at h
      rw [← h.1]
  · rw [List.foldl_append]
    exact setTitles_getElem_self (foldl_setTitles_length h60 hev) h1 h2
  · intro j hjL hj6
    rw [List.foldl_append]
    exact setTitles_getElem_ge (foldl_setTitles_length h60 hev) h2 hjL hj6

/-- Witness for `c2_heading_truncation_invariant`: prior events set headings
at levels 3 then 5; the final heading(2,"T") leaves "T" at level 2 and all
slots 3..6 unset. -/
theorem c2_witness :
    (∀ st st' d,
        processChild false false hash0 [] st (.heading 2 "T") = .ok (st', d) →
        st'.text_titles = setTitles st.text_titles 2 "T") ∧
    (((([(3, "a"), (5, "b")] : List (Nat × String)) ++ [(2, "T")]).foldl
        (fun ts (e : Nat × String) => setTitles ts e.1 e.2)
        (List.replicate 6 none))[2 - 1]? = some (some "T") ∧
      ∀ j, 2 ≤ j → j < 6 →
        ((([(3, "a"), (5, "b")] : List (Nat × String)) ++ [(2, "T")]).foldl
          (fun ts (e : Nat × String) => setTitles ts e.1 e.2)
          (List.replicate 6 none))[j]? = some none) := by
  exact c2_heading_truncation_invariant false false hash0 [] [(3, "a"), (5, "b")]
    (List.replicate 6 none) 2 "T" (by decide) (by decide) (by decide) (by decide)

/-- Claim C3, counterexample.  A single page carrying one table (serialized
to the non-empty string "N\nJ\n") and no children ends the run with empty
`accumulated_text`; the guarded end-of-input flush (line 179 `if
self.accumulated_text:`) then yields NOTHING, so no final Segment is flushed
and the appended table text appears in no yielded Segment — the claim's
"always flushes one final Segment, with no suppression rule" is false. -/
theorem c3_counterexample :
    process_pdf false false hash0 [] [⟨[⟨[some "N"], "J"⟩], []⟩] =
      .ok ([] : List Document) ∧
    pageTableText ⟨[⟨[some "N"], "J"⟩], []⟩ = "N\nJ\n" := by
  constructor
  · rfl
  · rfl

/-- Claim C3, amended.  The end-of-input flush is guarded: it emits a final
Segment iff `accumulated_text` is non-empty.  When it does fire, the final
Segment's `table` metadata carries every table text still accumulated; when
the document ends with empty accumulated text the flush is suppressed and
those table texts are dropped. -/
theorem c3_final_flush_guarded (embed : Bool) (fileMeta : List (String × String))
    (st : PState) (hfm : ∀ p ∈ fileMeta, p.1 ≠ "table") :
    (st.accumulated_text = "" → finalStep embed fileMeta st = none) ∧
    (st.accumulated_text ≠ "" →
      ∃ d, finalStep embed fileMeta st = some d ∧
        dictGet d.metadata "table" = some (.strList st.table_text_list)) := by
  constructor
  · intro hacc
    simp [finalStep, hacc]
  · intro hacc
    refine ⟨finalFlushDoc embed fileMeta st, by simp [finalStep, hacc], ?_⟩
    show dictGet (dictUpdate (dictUpdate _ _) _) "table" = _
    rw [dictGet_dictUpdate_not_mem _ _ _ (by
      intro p hp
      rcases List.mem_map.mp hp with ⟨q, hq, hqp⟩
      rw [← hqp]
      exact hfm q hq)]
    exact dictGet_dictUpdate_mem _ _ _ _ (by simp) (by simp)

/-- Witness for `c3_final_flush_guarded` at a state holding one table text
and non-empty accumulated text. -/
theorem c3_witness :
    ((⟨List.replicate 6 none, "X", [], ["T1"]⟩ : PState).accumulated_text = "" →
      finalStep false [] ⟨List.replicate 6 none, "X", [], ["T1"]⟩ = none) ∧
    ((⟨List.replicate 6 none, "X", [], ["T1"]⟩ : PState).accumulated_text ≠ "" →
      ∃ d, finalStep false [] ⟨List.replicate 6 none, "X", [], ["T1"]⟩ = some d ∧
        dictGet d.metadata "table" =
          some (.strList (⟨List.replicate 6 none, "X", [], ["T1"]⟩ : PState).table_text_list)) := by
  exact c3_final_flush_guarded false [] _ (by simp)

/-- Claim C4, counterexample.  A document ending with heading(1,"A"),
heading(2,"Sub"), paragraph "tail": the final Segment's `titles` metadata is
the FULL six-slot stack `[some "A", some "Sub", none, none, none, none]`
(line 185 stores `self.text_titles` untruncated), which contains four
unset-slot placeholders — the claim's "trailing unset levels omitted ... no
unset-slot placeholders" is false at this input. -/
theorem c4_counterexample :
    process_pdf false false hash0 []
      [⟨[], [.heading 1 "A", .heading 2 "Sub", .para none "tail"]⟩] =
      .ok [⟨"tail",
            [("titles", .optList [some "A", some "Sub", none, none, none, none]),
             ("images", .strList []), ("table", .strList [""])]⟩] ∧
    ([some "A", some "Sub", none, none, none, none] : List (Option String)) ≠
      [some "A", some "Sub"] := by
  constructor
  · rfl
  · decide

/-- Claim C4, amended.  When the end-of-input flush fires, the final
Segment's heading_path (`titles` metadata) is the full current six-slot
heading stack, untruncated and INCLUDING unset slots as `none` placeholders
(trailing unset levels are NOT omitted); in particular both the level-1 and
level-2 entries are present when both are set. -/
theorem c4_final_titles_full_stack (embed : Bool) (fileMeta : List (String × String))
    (st : PState) (hacc : st.accumulated_text ≠ "")
    (hfm : ∀ p ∈ fileMeta, p.1 ≠ "titles") :
    ∃ d, finalStep embed fileMeta st = some d ∧
      dictGet d.metadata "titles" = some (.optList st.text_titles) := by
  refine ⟨finalFlushDoc embed fileMeta st, by simp [finalStep, hacc], ?_⟩
  show dictGet (dictUpdate (dictUpdate _ _) _) "titles" = _
  rw [dictGet_dictUpdate_not_mem _ _ _ (by
    intro p hp
    rcases List.mem_map.mp hp with ⟨q, hq, hqp⟩
    rw [← hqp]
    exact hfm q hq)]
  rw [dictGet_dictUpdate_not_mem _ _ _ (by simp)]
  unfold dictGet
  rw [List.find?_cons_of_pos _ (by simp)]
  rfl

/-- Witness for `c4_final_titles_full_stack` at the stack
`[some "A", some "Sub", none, none, none, none]` of the claim's scenario. -/
theorem c4_witness :
    ∃ d, finalStep false []
        ⟨[some "A", some "Sub", none, none, none, none], "tail", [], [""]⟩ = some d ∧
      dictGet d.metadata "titles" =
        some (.optList [some "A", some "Sub", none, none, none, none]) := by
  exact c4_final_titles_full_stack false [] _ (by decide) (by simp)

/-- Concatenation of a list of strings with no separator (the effect of the
repeated `accumulated_text += child.get_text()` of line 176). -/
def concatList (l : List String) : String := l.foldr (fun a b => a ++ b) ""

theorem processChildren_paras (embed : Bool) (hash : List Nat → String)
    (fm : List (String × String)) (st : PState) (ts : List String) :
    processChildren embed false hash fm st (ts.map (Node.para none)) =
      .ok ({ st with accumulated_text := st.accumulated_text ++ concatList ts }, []) := by
  induction ts generalizing st with
  | nil => simp [processChildren, concatList]
  | cons t rest ih =>
    simp [processChildren, processChild, concatList, ih, String.append_assoc]

/-- Claim C5, confirmed.  Paragraph texts accumulated between two boundaries
— here spread over two pages with no intervening heading — are concatenated
in encounter order with no separator: the Segment flushed by the next heading
has body exactly `concatList ts ++ concatList us` (and the run continues to a
final "Z" Segment). -/
theorem c5_concatenation_no_separator (hash : List Nat → String) (ts us : List String)
    (hne : concatList ts ++ concatList us ≠ "") :
    process_pdf false false hash []
      [⟨[], ts.map (.para none)⟩, ⟨[], us.map (.para none)⟩,
       ⟨[], [.heading 1 "T", .para none "Z"]⟩] =
      .ok [⟨concatList ts ++ concatList us,
            [("titles", .optList [some "T"]), ("images", .strList []),
             ("table", .strList ["", "", ""])]⟩,
           ⟨"Z", [("titles", .optList [some "T", none, none, none, none, none]),
                  ("images", .strList []), ("table", .strList [])]⟩] := by
  simp [process_pdf, processPages, processPage, processChildren_paras, processChildren,
    processChild, midFlushDoc, finalStep, finalFlushDoc, initState, pageTableText,
    setTitles, dictUpdate, dictSet, hne, String.append_assoc]

/-- Witness for `c5_concatenation_no_separator`: paragraphs "A" then "B"
yield body text exactly "AB". -/
theorem c5_witness :
    process_pdf false false hash0 []
      [⟨[], [.para none "A"]⟩, ⟨[], [.para none "B"]⟩,
       ⟨[], [.heading 1 "T", .para none "Z"]⟩] =
      .ok [⟨"AB", [("titles", .optList [some "T"]), ("images", .strList []),
                   ("table", .strList ["", "", ""])]⟩,
           ⟨"Z", [("titles", .optList [some "T", none, none, none, none, none]),
                  ("images", .strList []), ("table", .strList [])]⟩] := by
  have h := c5_concatenation_no_separator hash0 ["A"] ["B"] (by decide)
  simpa [concatList] using h

/-- Claim C6, counterexample.  With title embedding enabled, a document with
heading(1,"") (empty heading text), heading(2,"Sub"), then paragraph "tail"
ends in a final Segment whose heading_path holds the set titles "" and "Sub",
but whose body is "Sub\n\ntail": the end-of-input flush builds the prefix
with Python `filter(None, ...)` (line 182), which drops the EMPTY string
title, so the body differs from "heading_path texts joined by newline"
(`"\n".join(["", "Sub"]) = "\nSub"`) followed by a blank line and the text. -/
theorem c6_counterexample :
    process_pdf true false hash0 []
      [⟨[], [.heading 1 "", .heading 2 "Sub", .para none "tail"]⟩] =
      .ok [⟨"Sub\n\ntail",
            [("titles", .optList [some "", some "Sub", none, none, none, none]),
             ("images", .strList []), ("table", .strList [""])]⟩] ∧
    ([some "", some "Sub", none, none, none, none].filterMap id = ["", "Sub"]) ∧
    "Sub\n\ntail" ≠ String.intercalate "\n" ["", "Sub"] ++ "\n\n" ++ "tail" := by
  refine ⟨rfl, by decide, by decide⟩

/-- Claim C6, amended.  With embedding disabled the body is exactly the
accumulated text (mid-stream and final).  With embedding enabled: a
mid-stream Segment (which is only produced when all governing title slots
are set — a `None` slot makes Python's join raise `TypeError`) has body
equal to its heading_path texts joined by newline, a blank line, then the
original text, exactly as claimed; the END-OF-INPUT Segment's prefix instead
joins the set titles with empty-string titles ALSO dropped
(`filter(None, ...)`), so it can differ from the claim's join when a set
title is the empty string. -/
theorem c6_title_embedding_bodies (fm : List (String × String)) (st : PState)
    (level : Nat) (hsome : (st.text_titles.take level).all Option.isSome) :
    ((midFlushDoc false fm st level).map Document.page_content =
      .ok st.accumulated_text) ∧
    ((finalFlushDoc false fm st).page_content = st.accumulated_text) ∧
    ((midFlushDoc true fm st level).map Document.page_content =
      .ok (String.intercalate "\n" ((st.text_titles.take level).filterMap id) ++
        "\n\n" ++ st.accumulated_text)) ∧
    ((finalFlushDoc true fm st).page_content =
      String.intercalate "\n" ((st.text_titles.filterMap id).filter (fun s => s ≠ "")) ++
        "\n\n" ++ st.accumulated_text) := by
  refine ⟨?_, ?_, ?_, ?_⟩
  · simp [midFlushDoc, Except.map]
  · simp [finalFlushDoc]
  · simp [midFlushDoc, pyJoinOpt, hsome, Except.map]
  · simp [finalFlushDoc, pyFilterTruthy]

/-- Witness for `c6_title_embedding_bodies` at a state with two set titles
governing the flush at level 2. -/
theorem c6_witness :
    ((midFlushDoc false [] ⟨[some "H1", some "H2", none, none, none, none], "body", [], []⟩
        2).map Document.page_content = .ok "body") ∧
    ((finalFlushDoc false [] ⟨[some "H1", some "H2", none, none, none, none], "body", [],
        []⟩).page_content = "body") ∧
    ((midFlushDoc true [] ⟨[some "H1", some "H2", none, none, none, none], "body", [], []⟩
        2).map Document.page_content =
      .ok (String.intercalate "\n"
          (([some "H1", some "H2", none, none, none, none].take 2).filterMap id) ++
        "\n\n" ++ "body")) ∧
    ((finalFlushDoc true [] ⟨[some "H1", some "H2", none, none, none, none], "body", [],
        []⟩).page_content =
      String.intercalate "\n"
          (([some "H1", some "H2", none, none, none, none].filterMap id).filter
            (fun s => s ≠ "")) ++ "\n\n" ++ "body") := by
  exact c6_title_embedding_bodies [] ⟨[some "H1", some "H2", none, none, none, none],
    "body", [], []⟩ 2 (by decide)

/-- Claim C7, evaluation of the code bug.  A one-page document with table
text "N\nJ\n" and paragraph "X" yields one final Segment.  At yield time its
table entry reads `["N\nJ\n"]` (recorded in `tableAtYield`), but the entry is
the ADDRESS (0) of the live `table_text_list` object (line 189 stores it
without `.copy()`, unlike the mid-stream flush of line 156); when the consumer
pulls the iterator past the final Segment, line 196 `.clear()` empties that
same object, so the already-yielded Segment's table field reads `[]`.  The
second run shows the mid-stream contrast: the Segment flushed by a heading
holds a copy (address 1) that still reads `["N\nJ\n"]` after the run. -/
theorem c7_final_segment_table_aliased :
    hProcessPdf false false hash0 [⟨[⟨[some "N"], "J"⟩], [.para none "X"]⟩] =
      .ok (⟨[[]]⟩, [⟨"X", List.replicate 6 none, [], 0, ["N\nJ\n"]⟩]) ∧
    hget ⟨[[]]⟩ 0 = [] ∧
    (["N\nJ\n"] : List String) ≠ [] ∧
    hProcessPdf false false hash0 [⟨[⟨[some "N"], "J"⟩], [.para none "X", .heading 1 "T"]⟩] =
      .ok (⟨[[], ["N\nJ\n"]]⟩,
           [⟨"X", [some "T"], [], 1, ["N\nJ\n"]⟩]) ∧
    hget ⟨[[], ["N\nJ\n"]]⟩ 1 = ["N\nJ\n"] := by
  refine ⟨rfl, rfl, by decide, rfl, rfl⟩

/-- Claim C8, counterexample.  The month field of "D:2023+115143022" is "+1",
which is not numeric (it contains the sign character), yet the conversion
SUCCEEDS — Python's `int` accepts a leading sign — returning
"2023-01-15 14:30:22" instead of failing with `MalformedDateError`. -/
theorem c8_counterexample :
    convert_pdf_date "D:2023+115143022" = .ok "2023-01-15 14:30:22" ∧
    pySlice "D:2023+115143022" 6 8 = "+1" ∧
    ("+1".data.all Char.isDigit) = false := by
  refine ⟨rfl, rfl, by decide⟩

/-- Claim C8, amended.  Each of the six positional fields is parsed with
Python `int` semantics (surrounding whitespace and a leading sign are
accepted, so a field need not be purely numeric to parse); when all six parse
and the values form a valid calendar date-time the conversion returns the
reformatted `YYYY-MM-DD HH:MM:SS` string, when the values are out of calendar
range it fails, and when any single field fails `int` parsing it fails. -/
theorem c8_date_conversion (s t : String) (y mo d h mi se : Int)
    (h1 : pythonInt (pySlice s 2 6) = some y)
    (h2 : pythonInt (pySlice s 6 8) = some mo)
    (h3 : pythonInt (pySlice s 8 10) = some d)
    (h4 : pythonInt (pySlice s 10 12) = some h)
    (h5 : pythonInt (pySlice s 12 14) = some mi)
    (h6 : pythonInt (pySlice s 14 16) = some se) :
    (datetimeValid y mo d h mi se → convert_pdf_date s = .ok (fmtDate y mo d h mi se)) ∧
    (¬ datetimeValid y mo d h mi se → convert_pdf_date s = .error ()) ∧
    (pythonInt (pySlice t 2 6) = none → convert_pdf_date t = .error ()) ∧
    (pythonInt (pySlice t 6 8) = none → convert_pdf_date t = .error ()) ∧
    (pythonInt (pySlice t 8 10) = none → convert_pdf_date t = .error ()) ∧
    (pythonInt (pySlice t 10 12) = none → convert_pdf_date t = .error ()) ∧
    (pythonInt (pySlice t 12 14) = none → convert_pdf_date t = .error ()) ∧
    (pythonInt (pySlice t 14 16) = none → convert_pdf_date t = .error ()) := by
  refine ⟨?_, ?_, ?_, ?_, ?_, ?_, ?_, ?_⟩
  · intro hv
    simp [convert_pdf_date, h1, h2, h3, h4, h5, h6, hv]
  · intro hv
    simp [convert_pdf_date, h1, h2, h3, h4, h5, h6, hv]
  · intro hn
    unfold convert_pdf_date
    rw [hn]
  · intro hn
    unfold convert_pdf_date
    cases e1 : pythonInt (pySlice t 2 6) with
    | none => rfl
    | some a => rw [hn]
  · intro hn
    unfold convert_pdf_date
    cases e1 : pythonInt (pySlice t 2 6) with
    | none => rfl
    | some a =>
      cases e2 : pythonInt (pySlice t 6 8) with
      | none => rfl
      | some b => rw [hn]
  · intro hn
    unfold convert_pdf_date
    cases e1 : pythonInt (pySlice t 2 6) with
    | none => rfl
    | some a =>
      cases e2 : pythonInt (pySlice t 6 8) with
      | none => rfl
      | some b =>
        cases e3 : pythonInt (pySlice t 8 10) with
        | none => rfl
        | some c => rw [hn]
  · intro hn
    unfold convert_pdf_date
    cases e1 : pythonInt (pySlice t 2 6) with
    | none => rfl
    | some a =>
      cases e2 : pythonInt (pySlice t 6 8) with
      | none => rfl
      | some b =>
        cases e3 : pythonInt (pySlice t 8 10) with
        | none => rfl
        | some c =>
          cases e4 : pythonInt (pySlice t 10 12) with
          | none => rfl
          | some dd => rw [hn]
  · intro hn
    unfold convert_pdf_date
    cases e1 : pythonInt (pySlice t 2 6) with
    | none => rfl
    | some a =>
      cases e2 : pythonInt (pySlice t 6 8) with
      | none => rfl
      | some b =>
        cases e3 : pythonInt (pySlice t 8 10) with
        | none => rfl
        | some c =>
          cases e4 : pythonInt (pySlice t 10 12) with
          | none => rfl
          | some dd =>
            cases e5 : pythonInt (pySlice t 12 14) with
            | none => rfl
            | some ee => rw [hn]

/-- Witness for `c8_date_conversion` at the spec's positive example
"D:20230615143022+08'00'" (apostrophes written as \x27). -/
theorem c8_witness :
    ((datetimeValid 2023 6 15 14 30 22 →
      convert_pdf_date "D:20230615143022+08\x2700\x27" =
        .ok (fmtDate 2023 6 15 14 30 22)) ∧
    (¬ datetimeValid 2023 6 15 14 30 22 →
      convert_pdf_date "D:20230615143022+08\x2700\x27" = .error ()) ∧
    (pythonInt (pySlice "" 2 6) = none → convert_pdf_date "" = .error ()) ∧
    (pythonInt (pySlice "" 6 8) = none → convert_pdf_date "" = .error ()) ∧
    (pythonInt (pySlice "" 8 10) = none → convert_pdf_date "" = .error ()) ∧
    (pythonInt (pySlice "" 10 12) = none → convert_pdf_date "" = .error ()) ∧
    (pythonInt (pySlice "" 12 14) = none → convert_pdf_date "" = .error ()) ∧
    (pythonInt (pySlice "" 14 16) = none → convert_pdf_date "" = .error ())) ∧
    fmtDate 2023 6 15 14 30 22 = "2023-06-15 14:30:22" := by
  refine ⟨c8_date_conversion "D:20230615143022+08\x2700\x27" "" 2023 6 15 14 30 22
    (by decide) (by decide) (by decide) (by decide) (by decide) (by decide), by decide⟩

/-- Claim C9, counterexample.  With image extraction enabled, a paragraph
whose `<img>` has a well-formed data URL but a malformed base64 payload
("abc") makes `b64decode` raise an uncaught `binascii.Error`: the whole page
processing ABORTS, the paragraph's text "hello" is not appended, and nothing
is yielded — contradicting "it is not dropped, and processing of the page
never aborts". -/
theorem c9_counterexample :
    process_pdf false true hash0 []
      [⟨[], [.para (some "data:image/png;base64,abc") "hello"]⟩] = .error () := by
  rfl

/-- Claim C9, amended.  With image extraction enabled: a paragraph with no
embedded image, or whose `src` does not start with `data:image/` (and, in the
source, likewise when the `;base64,` marker is missing), falls back to a
plain text paragraph whose text is appended to the accumulator; but when the
data URL is well-formed and the base64 payload fails to decode (such as
"abc", whose length is not a multiple of four), the exception propagates and
aborts the page — there is no fall-back to text in that case. -/
theorem c9_image_fallback (embed : Bool) (hash : List Nat → String)
    (fm : List (String × String)) (st : PState) (text src : String)
    (hsrc : ¬ pyStartsWith src "data:image/") :
    (processChild embed true hash fm st (.para none text) =
      .ok ({ st with accumulated_text := st.accumulated_text ++ text }, none)) ∧
    (processChild embed true hash fm st (.para (some src) text) =
      .ok ({ st with accumulated_text := st.accumulated_text ++ text }, none)) ∧
    (b64Decode "abc" = none) ∧
    (processChild embed true hash fm st (.para (some "data:image/png;base64,abc") text) =
      .error ()) := by
  refine ⟨?_, ?_, by decide, ?_⟩
  · simp [processChild, check_and_decode_base64_image]
  · simp [processChild, check_and_decode_base64_image, hsrc]
  · have hc : check_and_decode_base64_image hash (some "data:image/png;base64,abc") =
      .error () := rfl
    simp [processChild, hc]

/-- Witness for `c9_image_fallback` with a plain (non-data-URL) source. -/
theorem c9_witness :
    (processChild false true hash0 [] initState (.para none "hello") =
      .ok ({ initState with accumulated_text := initState.accumulated_text ++ "hello" },
        none)) ∧
    (processChild false true hash0 [] initState (.para (some "plain.png") "hello") =
      .ok ({ initState with accumulated_text := initState.accumulated_text ++ "hello" },
        none)) ∧
    (b64Decode "abc" = none) ∧
    (processChild false true hash0 [] initState
        (.para (some "data:image/png;base64,abc") "hello") = .error ()) := by
  exact c9_image_fallback false hash0 [] initState "hello" "plain.png" (by decide)

/-- Claim C10, confirmed.  Both segment constructors build the metadata dict
as `{titles, images}`, then `update({table})`, then `update(file_metadata)`
last — so a file-metadata key named "titles", "images" or "table" silently
overwrites the Segment's computed entry in every emitted Document. -/
theorem c10_file_metadata_overwrites_computed_keys (fm : List (String × String))
    (st : PState) (level : Nat) (k v : String)
    (hk : k = "titles" ∨ k = "images" ∨ k = "table")
    (hnodup : (fm.map Prod.fst).Nodup) (hmem : (k, v) ∈ fm) :
    (∃ d, midFlushDoc false fm st level = .ok d ∧
      dictGet d.metadata k = some (.str v)) ∧
    dictGet (finalFlushDoc false fm st).metadata k = some (.str v) := by
  have hnodup2 : ((fm.map (fun p => (p.1, MetaVal.str p.2))).map Prod.fst).Nodup := by
    rw [List.map_map]
    exact hnodup
  have hmem2 : (k, MetaVal.str v) ∈ fm.map (fun p => (p.1, MetaVal.str p.2)) := by
    simpa using List.mem_map_of_mem (fun p => (p.1, MetaVal.str p.2)) hmem
  refine ⟨⟨_, rfl, ?_⟩, ?_⟩
  · exact dictGet_dictUpdate_mem _ _ _ _ hnodup2 hmem2
  · exact dictGet_dictUpdate_mem _ _ _ _ hnodup2 hmem2

/-- Witness for `c10_file_metadata_overwrites_computed_keys`: a document
information dictionary containing the key "table" overrides the Segment's
computed table list. -/
theorem c10_witness :
    (∃ d, midFlushDoc false [("Producer", "x"), ("table", "OVR")] initState 1 = .ok d ∧
      dictGet d.metadata "table" = some (.str "OVR")) ∧
    dictGet (finalFlushDoc false [("Producer", "x"), ("table", "OVR")] initState).metadata
      "table" = some (.str "OVR") := by
  exact c10_file_metadata_overwrites_computed_keys [("Producer", "x"), ("table", "OVR")]
    initState 1 "table" "OVR" (by simp) (by simp) (by simp)

end PdfSplit
